import Mathlib

/-!
Verification of the SmartBackup manifest / backup / restore core.

This file shallowly embeds the Python source of the repository
(`src/smartbackup/...`) into Lean 4 and proves properties of the
embedded definitions.

Embedding conventions:
* Python `float` timestamps (`mtime`, `backed_up_at`) are modelled as `Int`;
  only ordering and equality of timestamps are ever used by the code.
* Python `datetime` values (`created`, `updated`) are modelled as their
  ISO-8601 string renderings; `datetime.isoformat` is the identity and
  `datetime.fromisoformat` is modelled as succeeding on every string this
  development constructs (its own parse failures would only add further
  load-time exceptions, which no claim needs).
* Python `dict[str, T]` is modelled as an insertion-ordered association list
  `List (String × T)`; `dict[k] = v` is `dictSet` (replace in place if the
  key is present, append otherwise), `dict.get` is `lookupKey`,
  `dict.pop(k, None)` removes the entry with key `k`.
* Python truthiness of `Optional[str]` (`None` and `""` are falsy) is
  modelled by comparing `Option.getD "" · ≠ ""`.
* Filesystem facts that the code reads (stat permissions, existence of
  virtual-env markers, existence of paths) are passed in as explicit
  parameters, since they are inputs of the computation.
-/

namespace SmartBackup

/-! Embedded definitions, translated from the Python source. -/

/-- Model of `str.lower()` on a character, ASCII range (the code only compares
ASCII names case-insensitively). -/
def lowerChar (c : Char) : Char :=
  if 65 ≤ c.toNat ∧ c.toNat ≤ 90 then Char.ofNat (c.toNat + 32) else c

/-- Model of `str.lower()` on a string (ASCII model of Python `str.lower`). -/
def lowerStr (s : String) : String := ⟨s.data.map lowerChar⟩

/-- Model of `str.startswith(pre)`. -/
def strStartsWith (s pre : String) : Bool := pre.data.isPrefixOf s.data

/-- Model of `dict.get k` on an insertion-ordered association list. -/
def lookupKey {α : Type} : List (String × α) → String → Option α
  | [], _ => none
  | (k, v) :: t, p => if k = p then some v else lookupKey t p

/-- Model of `dict[k] = v`: replace the entry in place if the key is present,
append a new entry otherwise (CPython dict insertion-order semantics). -/
def dictSet {α : Type} (d : List (String × α)) (k : String) (v : α) :
    List (String × α) :=
  if d.any (fun p => p.1 = k) then
    d.map (fun p => if p.1 = k then (k, v) else p)
  else d ++ [(k, v)]

/-- Model of `dict.pop(k, None)` (ignoring the returned value): removes the entry
with key `k` if present. -/
def dictRemove {α : Type} (d : List (String × α)) (k : String) :
    List (String × α) :=
  d.filter (fun p => ¬ p.1 = k)

/-- Keys of an association list, in insertion order
(`for k in d:` iterates these). -/
def dictKeys {α : Type} (d : List (String × α)) : List String :=
  d.map Prod.fst

/-- Model of `smartbackup/models.py`, `FileInfo`: metadata of one scanned source
file.  `file_hash` is `Optional[str]` (`None` when hashing is disabled or
the file is below the hash-size threshold; `""` when hashing failed). -/
structure FileInfo where
  path : String
  relative_path : String
  size : Int
  mtime : Int
  file_hash : Option String := none
deriving DecidableEq

/-- Model of `smartbackup/models.py`, `FileInfo.needs_update`. -/
def FileInfo.needs_update (self other : FileInfo) (use_hash : Bool) : Bool :=
  if self.size ≠ other.size then true
  else if other.mtime < self.mtime then true
  else if use_hash ∧ (self.file_hash.getD "") ≠ "" ∧ (other.file_hash.getD "") ≠ "" then
    decide (self.file_hash ≠ other.file_hash)
  else false

/-- Model of `smartbackup/manifest/base.py`, `ManifestEntry`: one persisted file
record of the manifest. -/
structure ManifestEntry where
  relative_path : String
  file_hash : String
  size : Int
  mtime : Int
  permissions : Int
  backed_up_at : Int
deriving DecidableEq

/-- Model of `ManifestEntry.has_changed`: the manifest change rule.  Python
truthiness `if file_info.file_hash and self.file_hash:` means: the
file's optional hash is neither `None` nor `""`, and the entry's hash is
not `""`. -/
def ManifestEntry.has_changed (self : ManifestEntry) (file_info : FileInfo) : Bool :=
  if file_info.size ≠ self.size then true
  else if self.mtime < file_info.mtime then true
  else if (file_info.file_hash.getD "") ≠ "" ∧ self.file_hash ≠ "" then
    decide ((file_info.file_hash.getD "") ≠ self.file_hash)
  else false

/-- Model of `ManifestEntry.from_file_info`: build an entry for a file that was
just backed up.  `permissions` is the result of `file_info.path.stat().st_mode`
(an input read from the filesystem, so passed as a parameter; the code
falls back to `0o644` when stat fails), `backed_up_at` is the supplied
backup timestamp. -/
def ManifestEntry.from_file_info (file_info : FileInfo) (permissions : Int)
    (backed_up_at : Int) : ManifestEntry :=
  { relative_path := file_info.relative_path
    file_hash := file_info.file_hash.getD ""
    size := file_info.size
    mtime := file_info.mtime
    permissions := permissions
    backed_up_at := backed_up_at }

/-- Model of `ManifestFormat` enum. -/
inductive ManifestFormat where
  | JSON
  | SQLITE
deriving DecidableEq

/-- Model of `ManifestFormat.value`. -/
def ManifestFormat.value : ManifestFormat → String
  | .JSON => "json"
  | .SQLITE => "sqlite"

/-- Model of `smartbackup/manifest/base.py`, `Manifest`.  `created`/`updated`
are ISO strings (see the file header), `entries` is the
`Dict[str, ManifestEntry]`. -/
structure Manifest where
  version : Int := 1
  format : ManifestFormat := .JSON
  created : String
  updated : String
  source : String := ""
  hostname : String := ""
  backup_count : Int := 0
  entries : List (String × ManifestEntry) := []
deriving DecidableEq

/-- Model of `Manifest.get_entry`. -/
def Manifest.get_entry (m : Manifest) (relative_path : String) : Option ManifestEntry :=
  lookupKey m.entries relative_path

/-- Model of `Manifest.add_entry` (`now` is the `datetime.now()` written into
`updated`). -/
def Manifest.add_entry (m : Manifest) (entry : ManifestEntry) (now : String) : Manifest :=
  { m with entries := dictSet m.entries entry.relative_path entry, updated := now }

/-- Model of `Manifest.remove_entry` (updates `updated` only when an entry was
actually removed). -/
def Manifest.remove_entry (m : Manifest) (relative_path : String) (now : String) : Manifest :=
  { m with
    entries := dictRemove m.entries relative_path
    updated :=
      if (lookupKey m.entries relative_path).isSome then now else m.updated }

/-- Model of `Manifest.total_files`. -/
def Manifest.total_files (m : Manifest) : Int := m.entries.length

/-- Model of `Manifest.total_size`. -/
def Manifest.total_size (m : Manifest) : Int :=
  (m.entries.map (fun p => p.2.size)).sum

/-- Model of `smartbackup/manifest/base.py`, `ManifestDiff`: result of comparing a
scan against a manifest. -/
structure ManifestDiff where
  new_files : List FileInfo := []
  modified_files : List FileInfo := []
  deleted_paths : List String := []
  unchanged_files : List FileInfo := []
deriving DecidableEq

/-- One iteration of the `for file_info in source_files.values():` loop of
`ManifestManager.diff`: classify `f` into exactly one of the three lists. -/
def diffStep (m : Manifest) (d : ManifestDiff) (f : FileInfo) : ManifestDiff :=
  match m.get_entry f.relative_path with
  | none => { d with new_files := d.new_files ++ [f] }
  | some entry =>
    if entry.has_changed f then
      { d with modified_files := d.modified_files ++ [f] }
    else
      { d with unchanged_files := d.unchanged_files ++ [f] }

/-- Model of `ManifestManager.diff`.  `source_files` stands for
`source_files.values()` (the values of the scan dictionary, in iteration
order); `manifest` is the manifest after the `self.load()` fallback.
`seen_paths` collects every scanned relative path before the deleted pass. -/
def ManifestManager.diff (source_files : List FileInfo)
    (manifest : Option Manifest) : ManifestDiff :=
  match manifest with
  | none => { new_files := source_files }
  | some m =>
    let d := source_files.foldl (diffStep m) {}
    let seen := source_files.map (fun f => f.relative_path)
    { d with
      deleted_paths := (dictKeys m.entries).filter (fun p => decide (¬ p ∈ seen)) }

/-- The classification predicate for `new_files`: no manifest entry. -/
def isNew (m : Manifest) (f : FileInfo) : Bool :=
  (m.get_entry f.relative_path).isNone

/-- The classification predicate for `modified_files`. -/
def isModified (m : Manifest) (f : FileInfo) : Bool :=
  match m.get_entry f.relative_path with
  | none => false
  | some entry => entry.has_changed f

/-- The classification predicate for `unchanged_files`. -/
def isUnchanged (m : Manifest) (f : FileInfo) : Bool :=
  match m.get_entry f.relative_path with
  | none => false
  | some entry => !(entry.has_changed f)

/-- Model of `ManifestManager.update_from_backup`: add/overwrite an entry per
backed-up file (stamped `backup_time`), remove entries for deleted paths,
increment the run counter, refresh `updated`.  `permOf` supplies the
`st_mode` read for each file, `now` the `datetime.now()` values. -/
def ManifestManager.update_from_backup (manifest : Manifest)
    (backed_up_files : List FileInfo) (deleted_paths : List String)
    (backup_time : Int) (now : String) (permOf : FileInfo → Int) : Manifest :=
  let m1 := backed_up_files.foldl
    (fun acc f =>
      acc.add_entry (ManifestEntry.from_file_info f (permOf f) backup_time) now)
    manifest
  let m2 := deleted_paths.foldl (fun acc p => acc.remove_entry p now) m1
  { m2 with backup_count := m2.backup_count + 1, updated := now }

/-- Concrete manifest used by witnesses and counterexamples. -/
def exManifest : Manifest :=
  { created := "2024-01-01T00:00:00", updated := "2024-01-01T00:00:00"
    source := "/home/user/Documents", hostname := "host-1" }

/-- Concrete file `a.txt` used by the C3 counterexample. -/
def exFileA : FileInfo :=
  { path := "/home/user/Documents/a.txt", relative_path := "a.txt"
    size := 11, mtime := 50, file_hash := none }

/-- A decoded JSON value. -/
inductive Json where
  | null
  | bool (b : Bool)
  | num (n : Int)
  | str (s : String)
  | arr (items : List Json)
  | obj (fields : List (String × Json))

/-- Python `data.get(key, default)`: only dicts have `.get`; any other
decoded value raises `AttributeError`. -/
def Json.get (data : Json) (key : String) (default : Json) :
    Except String Json :=
  match data with
  | .obj fields =>
    match lookupKey fields key with
    | some v => .ok v
    | none => .ok default
  | _ => .error "AttributeError"

/-- Coercion used for fields Python stores unchecked (see the section
comment). -/
def Json.intD (default : Int) : Json → Int
  | .num n => n
  | _ => default

/-- Coercion used for fields Python stores unchecked (see the section
comment). -/
def Json.strD (default : String) : Json → String
  | .str s => s
  | _ => default

/-- Model of `ManifestFormat(value)`: `ValueError` on anything but the two live
enum values (`TypeError` for unhashable values is folded into the same
error case). -/
def ManifestFormat.ofJson : Json → Except String ManifestFormat
  | .str "json" => .ok .JSON
  | .str "sqlite" => .ok .SQLITE
  | _ => .error "ValueError: not a valid ManifestFormat"

/-- Model of `datetime.fromisoformat(x)`: `TypeError` when `x` is not a string;
parse failures on string contents are not modelled (see the file
header). -/
def fromIso : Json → Except String String
  | .str s => .ok s
  | _ => .error "TypeError: fromisoformat argument must be str"

/-- Model of `ManifestEntry.to_dict`. -/
def ManifestEntry.to_dict (e : ManifestEntry) : Json :=
  .obj [("hash", .str e.file_hash), ("size", .num e.size),
        ("mtime", .num e.mtime), ("permissions", .num e.permissions),
        ("backed_up_at", .num e.backed_up_at)]

/-- Model of `ManifestEntry.from_dict`: raises only when `data` is not a dict;
absent fields fall back to the defaults (`""`, `0`, `0.0`, `0o644`,
`0.0`). -/
def ManifestEntry.from_dict (relative_path : String) (data : Json) :
    Except String ManifestEntry := do
  let h ← data.get "hash" (.str "")
  let sz ← data.get "size" (.num 0)
  let mt ← data.get "mtime" (.num 0)
  let pm ← data.get "permissions" (.num 420)
  let ba ← data.get "backed_up_at" (.num 0)
  .ok { relative_path := relative_path
        file_hash := h.strD ""
        size := sz.intD 0
        mtime := mt.intD 0
        permissions := pm.intD 420
        backed_up_at := ba.intD 0 }

/-- Model of `Manifest.to_dict`. -/
def Manifest.to_dict (m : Manifest) : Json :=
  .obj [("version", .num m.version), ("format", .str m.format.value),
        ("created", .str m.created), ("updated", .str m.updated),
        ("source", .str m.source), ("hostname", .str m.hostname),
        ("backup_count", .num m.backup_count),
        ("total_files", .num m.total_files),
        ("total_size", .num m.total_size),
        ("files", .obj (m.entries.map (fun p => (p.1, p.2.to_dict))))]

/-- The body of the `for relative_path, entry_data in files_data.items():`
loop of `Manifest.from_dict`: `manifest.entries[relative_path] = ...`. -/
def entryStep (acc : List (String × ManifestEntry)) (p : String × Json) :
    Except String (List (String × ManifestEntry)) := do
  let e ← ManifestEntry.from_dict p.1 p.2
  pure (dictSet acc p.1 e)

/-- Model of `Manifest.from_dict` (`now` stands for the `datetime.now()` defaults
of the absent-key fallbacks).  Exceptions of `ManifestFormat(...)`,
`fromisoformat` and attribute access propagate. -/
def Manifest.from_dict (now : String) (data : Json) : Except String Manifest := do
  let version ← data.get "version" (.num 1)
  let fmtJ ← data.get "format" (.str "json")
  let fmt ← ManifestFormat.ofJson fmtJ
  let createdJ ← data.get "created" (.str now)
  let created ← fromIso createdJ
  let updatedJ ← data.get "updated" (.str now)
  let updated ← fromIso updatedJ
  let sourceJ ← data.get "source" (.str "")
  let hostJ ← data.get "hostname" (.str "")
  let bcJ ← data.get "backup_count" (.num 0)
  let filesJ ← data.get "files" (.obj [])
  match filesJ with
  | .obj files_data => do
    let entries ← files_data.foldlM entryStep ([] : List (String × ManifestEntry))
    .ok { version := version.intD 1
          format := fmt
          created := created
          updated := updated
          source := sourceJ.strD ""
          hostname := hostJ.strD ""
          backup_count := bcJ.intD 0
          entries := entries }
  | _ => .error "AttributeError"

/-- On-disk states of the manifest file that `load` distinguishes:
absent (`exists()` is false), unreadable (`open`/read raises
`IOError`/`OSError`), garbled (present but `json.load` raises
`JSONDecodeError`), or decodable to a `Json` value. -/
inductive Disk where
  | absent
  | unreadable
  | garbled
  | content (data : Json)

/-- Model of `JsonManifestManager.load`: absent, unreadable and undecodable files
are caught and give `none`; exceptions raised by `Manifest.from_dict` on
a decodable file are NOT caught by the
`except (json.JSONDecodeError, IOError, OSError)` clause and escape. -/
def JsonManifestManager.load (now : String) (d : Disk) :
    Except String (Option Manifest) :=
  match d with
  | .absent => .ok none
  | .unreadable => .ok none
  | .garbled => .ok none
  | .content data => (Manifest.from_dict now data).map some

/-- Entry stored under `exManifest4`. -/
def exEntryB : ManifestEntry :=
  { relative_path := "b.txt", file_hash := "d41d8cd9", size := 5, mtime := 40
    permissions := 420, backed_up_at := 99 }

/-- Concrete one-entry manifest used by the C4 witness. -/
def exManifest4 : Manifest :=
  { created := "2024-01-01T00:00:00", updated := "2024-01-02T00:00:00"
    source := "/home/user/Documents", hostname := "host-1", backup_count := 3
    entries := [("b.txt", exEntryB)] }

/-- The failure point a `save` run can hit, if any: the `mkdir`, the
temp-file write (`json.dump`), or the `replace` rename. -/
inductive SaveFailure where
  | mkdirFail
  | writeFail
  | replaceFail
deriving DecidableEq

/-- The two files `save` touches inside the backup directory. -/
structure ManifestDir where
  final : Disk := .absent
  temp : Disk := .absent

/-- Model of `JsonManifestManager.save`: write the serialized manifest to
`<name>.json.tmp`, then `replace` it over the final path; on any failure
the handler unlinks the temp file (`missing_ok=True`) and returns
`False`.  `failure` injects at most one failing step. -/
def JsonManifestManager.save (dir : ManifestDir) (manifest : Manifest)
    (failure : Option SaveFailure) : ManifestDir × Bool :=
  if failure = some .mkdirFail then
    ({ dir with temp := .absent }, false)
  else if failure = some .writeFail then
    ({ dir with temp := .absent }, false)
  else
    let dir1 : ManifestDir := { dir with temp := .content manifest.to_dict }
    if failure = some .replaceFail then
      ({ dir1 with temp := .absent }, false)
    else
      ({ final := dir1.temp, temp := .absent }, true)

/-- Model of `smartbackup/models.py`, `BackupResult` (counters only; the
timestamps and per-file action list are irrelevant to the claims). -/
structure BackupResult where
  total_files : Int := 0
  copied_files : Int := 0
  updated_files : Int := 0
  skipped_files : Int := 0
  deleted_files : Int := 0
  errors : Int := 0
  total_size : Int := 0
  copied_size : Int := 0
deriving DecidableEq

/-- Model of `smartbackup/core/restore.py`, `RestoreResult` (counters only). -/
structure RestoreResult where
  total_files : Int := 0
  restored_files : Int := 0
  skipped_files : Int := 0
  overwritten_files : Int := 0
  errors : Int := 0
  total_size : Int := 0
  restored_size : Int := 0
deriving DecidableEq

/-- Filesystem facts read by `BackupEngine._validate_paths`: existence of
the source directory, of the backup medium, and success of the
write-then-delete probe. -/
structure PathEnv where
  sourceExists : Bool
  backupExists : Bool
  writeProbeOk : Bool
deriving DecidableEq

/-- Model of `BackupEngine._validate_paths` (logs on failure, touches no
counters). -/
def BackupEngine.validate_paths (env : PathEnv) : Bool :=
  env.sourceExists && env.backupExists && env.writeProbeOk

/-- Model of `BackupEngine.run_backup`, modelled up to the validation guard:
`rest` abstracts the result of steps 2-9 (scan, diff, copy, manifest
update), which execute only when validation passes.  On validation
failure the method returns the freshly constructed `BackupResult`
unchanged — nothing increments `errors`. -/
def BackupEngine.run_backup (env : PathEnv) (rest : BackupResult) :
    BackupResult :=
  if BackupEngine.validate_paths env then rest else {}

/-- Inputs of the entry guard of `RestoreEngine.restore`: whether the
backup directory exists, the explicitly supplied target path, and the
loaded manifest (already the result of `load`, `None` on
absent/corrupted). -/
structure RestoreEnv where
  backupTargetExists : Bool
  target_path : Option String
  manifest : Option Manifest

/-- The condition under which `RestoreEngine.restore` aborts in its
validation steps 1-2: backup directory missing, or no explicit target
and no usable manifest `source` (`if manifest and manifest.source:` —
an empty source string is falsy). -/
def RestoreEngine.validation_failed (env : RestoreEnv) : Bool :=
  !env.backupTargetExists ||
    (env.target_path.isNone &&
      (match env.manifest with
       | none => true
       | some m => m.source = ""))

/-- Model of `RestoreEngine.restore`, modelled up to its validation steps 1-2:
`rest` abstracts steps 3-4 (collection and restore), which execute only
when validation passes.  Both failure paths set `errors = 1` on the
freshly constructed result and return it. -/
def RestoreEngine.restore (env : RestoreEnv) (rest : RestoreResult) :
    RestoreResult :=
  if !env.backupTargetExists then { errors := 1 }
  else
    match env.target_path with
    | some _ => rest
    | none =>
      match env.manifest with
      | some m => if m.source ≠ "" then rest else { errors := 1 }
      | none => { errors := 1 }

/-- A nonzero abstract remainder, showing the guard ignores it. -/
def exRest : BackupResult :=
  { total_files := 9, copied_files := 4, errors := 5 }

/-- Model of `smartbackup/core/restore.py`, `ConflictResolution`. -/
inductive ConflictResolution where
  | SKIP
  | OVERWRITE
  | RENAME
  | NEWER
deriving DecidableEq

/-- Model of `smartbackup/models.py`, `FileAction`. -/
inductive FileAction where
  | COPIED
  | UPDATED
  | SKIPPED
  | DELETED
  | ERROR
deriving DecidableEq

/-- Content and mtime of one file on disk. -/
structure FileState where
  content : String
  mtime : Int
deriving DecidableEq

/-- Model of `RestoreEngine.restore` line 150: the `overwrite` flag selects the
policy. -/
def conflict_of (overwrite : Bool) : ConflictResolution :=
  if overwrite then .OVERWRITE else .SKIP

/-- Model of `RestoreEngine._restore_single_file` on the exception-free path with
`dry_run=False`: returns the resulting target state (`shutil.copy2`
preserves content and mtime, via a temp file renamed over the target)
and the `(success, action, message)` triple. -/
def RestoreEngine.restore_single_file (src : FileState)
    (target : Option FileState) (policy : ConflictResolution) :
    Option FileState × (Bool × FileAction × String) :=
  match target with
  | some t =>
    match policy with
    | .SKIP => (some t, (true, .SKIPPED, "File exists"))
    | .NEWER =>
      if src.mtime ≤ t.mtime then (some t, (true, .SKIPPED, "Target is newer"))
      else (some src, (true, .UPDATED, "OK"))
    | .OVERWRITE => (some src, (true, .UPDATED, "OK"))
    | .RENAME => (some src, (true, .UPDATED, "OK"))
  | none => (some src, (true, .COPIED, "OK"))

/-- The per-file accounting of `RestoreEngine._restore_files` (lines
221-232): a successful `COPIED` counts as restored, `UPDATED` as
overwritten, `SKIPPED` as skipped; a failure counts as an error. -/
def RestoreResult.record (r : RestoreResult) (success : Bool)
    (action : FileAction) (sz : Int) : RestoreResult :=
  if success then
    match action with
    | .COPIED =>
      { r with
        restored_files := r.restored_files + 1
        restored_size := r.restored_size + sz }
    | .UPDATED =>
      { r with
        overwritten_files := r.overwritten_files + 1
        restored_size := r.restored_size + sz }
    | .SKIPPED => { r with skipped_files := r.skipped_files + 1 }
    | _ => r
  else { r with errors := r.errors + 1 }

/-- The `"*" in excl or "?" in excl` test of `ExclusionFilter.__init__`. -/
def hasGlobChar (s : String) : Bool :=
  s.data.any (fun c => c == '*' || c == '?')

/-- Anchored matcher for the regexes `ExclusionFilter.__init__` compiles
from glob exclusions (`.` escaped, `*` → `.*`, `?` → `.`; other
characters matched literally — regex metacharacters beyond the dot are
not modelled, no claim exercises them).  `re.IGNORECASE` is applied by
lowering both sides at the call site. -/
def globMatch : List Char → List Char → Bool
  | [], [] => true
  | [], _ :: _ => false
  | '*' :: ps, [] => globMatch ps []
  | _ :: _, [] => false
  | '*' :: ps, c :: cs => globMatch ps (c :: cs) || globMatch ('*' :: ps) cs
  | '?' :: ps, _ :: cs => globMatch ps cs
  | p :: ps, c :: cs => p == c && globMatch ps cs
termination_by ps cs => (ps.length, cs.length)

/-- Model of `PurePath.suffix`: the last extension of the final component; empty
when the final dot is at position 0 or at the very end or absent. -/
def pathSuffix (name : String) : String :=
  let cs := name.data
  match cs.reverse.findIdx? (fun c => c == '.') with
  | none => ""
  | some j =>
    let i := cs.length - 1 - j
    if 0 < i ∧ i < cs.length - 1 then ⟨cs.drop i⟩ else ""

/-- A filesystem path as `should_exclude` consumes it: only the final
name component is ever inspected (`path.name`, and `path.suffix` derived
from it). -/
structure SPath where
  name : String
deriving DecidableEq

/-- Model of `smartbackup/core/scanner.py`, `ExclusionFilter` state after
`__init__`. -/
structure ExclusionFilter where
  exact_matches : List String
  patterns : List String
  excluded_extensions : List String

/-- Model of `ExclusionFilter.__init__`: glob-looking exclusions become patterns,
the rest join the lowercased exact-match set; extensions are lowercased.
The Python sets are modelled as lists (iteration order is arbitrary). -/
def ExclusionFilter.init (exclusions : List String)
    (excluded_extensions : List String) : ExclusionFilter :=
  { exact_matches := (exclusions.filter (fun e => !(hasGlobChar e))).map lowerStr
    patterns := exclusions.filter hasGlobChar
    excluded_extensions := excluded_extensions.map lowerStr }

/-- Model of `ExclusionFilter.should_exclude`.  `is_venv` is the result of the
filesystem-probing `_is_virtual_env(path)` (marker-file existence),
passed in as an oracle; for the pattern branch the reported reason uses
the glob source where Python prints the compiled regex text. -/
def ExclusionFilter.should_exclude (self : ExclusionFilter) (path : SPath)
    (is_venv : Bool) : Bool × String :=
  let name := lowerStr path.name
  if name ∈ self.exact_matches then (true, "Exact match: " ++ name)
  else if lowerStr (pathSuffix path.name) ∈ self.excluded_extensions then
    (true, "Excluded extension: " ++ pathSuffix path.name)
  else
    match self.patterns.find? (fun pat => globMatch (lowerStr pat).data name.data) with
    | some pat => (true, "Pattern match: " ++ pat)
    | none => if is_venv then (true, "Virtual environment detected") else (false, "")

/-- Model of `fnmatch.fnmatch` as used on POSIX (`normcase` is the identity;
bracket classes, which no caller uses, are not modelled). -/
def fnmatch (name pat : String) : Bool := globMatch pat.data name.data

/-- Model of `RestoreEngine._collect_files`: `files` are the relative paths
(rendered as strings) of all regular files under the backup target in
walk order; internal bookkeeping (`_backup_logs*`, `.smartbackup*`
prefixes) is skipped before the optional pattern filter; an empty
pattern list is falsy in Python, so it disables filtering just like
`patterns=None`. -/
def RestoreEngine.collect_files (files : List String)
    (patterns : List String) : List String :=
  files.filter (fun rel =>
    !(strStartsWith rel "_backup_logs" || strStartsWith rel ".smartbackup")
    && (patterns.isEmpty || patterns.any (fun pat => fnmatch rel pat)))

/-- Concrete entry used by witnesses. -/
def exEntry : ManifestEntry :=
  { relative_path := "a.txt", file_hash := "", size := 3, mtime := 10
    permissions := 420, backed_up_at := 100 }

/-- Concrete file used by witnesses: same path, larger size. -/
def exFile : FileInfo :=
  { path := "/src/a.txt", relative_path := "a.txt", size := 4, mtime := 5
    file_hash := none }

/-! Properties of the embedded definitions. -/

/-- C1 — For every source `FileInfo` and manifest entry, the entry
classifies the file as modified (`has_changed = true`) iff the size
differs, or the file's mtime is strictly newer than the stored mtime, or
both sides carry a non-empty hash and the hashes differ.  In particular
(second conjunct) an mtime strictly older than the stored one with equal
size and no hash on either side is unchanged, and (third conjunct) a size
difference is modified regardless of mtime direction. -/
theorem C1_change_rule :
    (∀ (e : ManifestEntry) (f : FileInfo),
      e.has_changed f = true ↔
        (f.size ≠ e.size ∨ e.mtime < f.mtime ∨
          ((f.file_hash.getD "") ≠ "" ∧ e.file_hash ≠ "" ∧
            (f.file_hash.getD "") ≠ e.file_hash)))
    ∧ (∀ (e : ManifestEntry) (f : FileInfo),
        f.mtime < e.mtime → f.size = e.size →
        (f.file_hash.getD "") = "" → e.file_hash = "" →
        e.has_changed f = false)
    ∧ (∀ (e : ManifestEntry) (f : FileInfo),
        f.size ≠ e.size → e.has_changed f = true) := by
  refine ⟨?_, ?_, ?_⟩
  · intro e f
    unfold ManifestEntry.has_changed
    by_cases hs : f.size ≠ e.size
    · simp [hs]
    · by_cases hm : e.mtime < f.mtime
      · simp [hs, hm]
      · by_cases hh : (f.file_hash.getD "") ≠ "" ∧ e.file_hash ≠ ""
        · simp [hs, hm, hh]
          try tauto
        · simp [hs, hm, hh]
          try tauto
  · intro e f hlt hsz hfh heh
    unfold ManifestEntry.has_changed
    have h1 : ¬ f.size ≠ e.size := by simp [hsz]
    have h2 : ¬ e.mtime < f.mtime := by omega
    simp [h1, h2, hfh]
  · intro e f hs
    unfold ManifestEntry.has_changed
    simp [hs]

theorem diff_foldl_new (m : Manifest) (l : List FileInfo) (d : ManifestDiff) :
    (l.foldl (diffStep m) d).new_files = d.new_files ++ l.filter (isNew m) := by
  induction l generalizing d with
  | nil => simp
  | cons f t ih =>
    rw [List.foldl_cons, ih, List.filter_cons]
    unfold diffStep isNew
    cases h : m.get_entry f.relative_path with
    | none => simp [h]
    | some entry =>
      by_cases hc : entry.has_changed f = true
      · simp [h, hc]
      · simp [h, hc]

theorem diff_foldl_modified (m : Manifest) (l : List FileInfo) (d : ManifestDiff) :
    (l.foldl (diffStep m) d).modified_files
      = d.modified_files ++ l.filter (isModified m) := by
  induction l generalizing d with
  | nil => simp
  | cons f t ih =>
    rw [List.foldl_cons, ih, List.filter_cons]
    unfold diffStep isModified
    cases h : m.get_entry f.relative_path with
    | none => simp [h]
    | some entry =>
      by_cases hc : entry.has_changed f = true
      · simp [h, hc]
      · simp [h, hc]

theorem diff_foldl_unchanged (m : Manifest) (l : List FileInfo) (d : ManifestDiff) :
    (l.foldl (diffStep m) d).unchanged_files
      = d.unchanged_files ++ l.filter (isUnchanged m) := by
  induction l generalizing d with
  | nil => simp
  | cons f t ih =>
    rw [List.foldl_cons, ih, List.filter_cons]
    unfold diffStep isUnchanged
    cases h : m.get_entry f.relative_path with
    | none => simp [h]
    | some entry =>
      by_cases hc : entry.has_changed f = true
      · simp [h, hc]
      · simp [h, hc]

/-- When the scanned relative paths are pairwise distinct, the relative
path of a scanned file occurs in the filtered list's paths once if the
predicate selects the file and zero times otherwise. -/
theorem count_rel_filter (p : FileInfo → Bool) {src : List FileInfo} {f : FileInfo}
    (hnd : (src.map (fun g => g.relative_path)).Nodup) (hf : f ∈ src) :
    ((src.filter p).map (fun g => g.relative_path)).count f.relative_path
      = if p f then 1 else 0 := by
  induction src with
  | nil => cases hf
  | cons g t ih =>
    rw [List.map_cons, List.nodup_cons] at hnd
    obtain ⟨hg, hndt⟩ := hnd
    rcases List.mem_cons.mp hf with hfg | hft
    · subst hfg
      have hzero :
          ((t.filter p).map (fun g => g.relative_path)).count f.relative_path = 0 := by
        rw [List.count_eq_zero]
        intro hmem
        rcases List.mem_map.mp hmem with ⟨x, hx, he⟩
        exact hg (he ▸ List.mem_map_of_mem _ (List.mem_of_mem_filter hx))
      rw [List.filter_cons]
      by_cases hp : p f
      · simp [hp, List.count_cons, hzero]
      · simp [hp, hzero]
    · have hne : f.relative_path ≠ g.relative_path := by
        intro he
        exact hg (he ▸ List.mem_map_of_mem (fun x => x.relative_path) hft)
      rw [List.filter_cons]
      by_cases hp : p g
      · have hne' : ¬ g.relative_path = f.relative_path := fun h => hne h.symm
        simp only [hp, if_pos, List.map_cons, List.count_cons]
        rw [ih hndt hft]
        simp [hne']
      · simp only [hp, Bool.false_eq_true, if_neg, not_false_eq_true]
        exact ih hndt hft

/-- Exactly one of the three classification predicates holds for any file. -/
theorem classify_trichotomy (m : Manifest) (f : FileInfo) :
    (isNew m f = true ∧ isModified m f = false ∧ isUnchanged m f = false)
    ∨ (isNew m f = false ∧ isModified m f = true ∧ isUnchanged m f = false)
    ∨ (isNew m f = false ∧ isModified m f = false ∧ isUnchanged m f = true) := by
  unfold isNew isModified isUnchanged
  cases h : m.get_entry f.relative_path with
  | none => simp
  | some entry => cases hc : entry.has_changed f <;> simp [hc]

/-- C2 — `diff` partitions the scan: with pairwise-distinct scanned
relative paths and a non-`None` manifest, every scanned file's relative
path occurs exactly once across `new_files`, `modified_files` and
`unchanged_files` together, and a path is in `deleted_paths` iff it is a
manifest key that is not the relative path of any scanned file. -/
theorem C2_diff_partition (src : List FileInfo) (m : Manifest)
    (hnd : (src.map (fun f => f.relative_path)).Nodup) :
    (∀ f ∈ src,
      ((ManifestManager.diff src (some m)).new_files.map
          (fun g => g.relative_path)).count f.relative_path
      + ((ManifestManager.diff src (some m)).modified_files.map
          (fun g => g.relative_path)).count f.relative_path
      + ((ManifestManager.diff src (some m)).unchanged_files.map
          (fun g => g.relative_path)).count f.relative_path = 1)
    ∧ (∀ p : String,
        p ∈ (ManifestManager.diff src (some m)).deleted_paths ↔
          (p ∈ dictKeys m.entries ∧
            ¬ p ∈ src.map (fun f => f.relative_path))) := by
  constructor
  · intro f hf
    have hnew : (ManifestManager.diff src (some m)).new_files
        = src.filter (isNew m) := by
      unfold ManifestManager.diff
      simp [diff_foldl_new]
    have hmod : (ManifestManager.diff src (some m)).modified_files
        = src.filter (isModified m) := by
      unfold ManifestManager.diff
      simp [diff_foldl_modified]
    have hunch : (ManifestManager.diff src (some m)).unchanged_files
        = src.filter (isUnchanged m) := by
      unfold ManifestManager.diff
      simp [diff_foldl_unchanged]
    rw [hnew, hmod, hunch,
      count_rel_filter (isNew m) hnd hf,
      count_rel_filter (isModified m) hnd hf,
      count_rel_filter (isUnchanged m) hnd hf]
    rcases classify_trichotomy m f with ⟨h1, h2, h3⟩ | ⟨h1, h2, h3⟩ | ⟨h1, h2, h3⟩ <;>
      simp [h1, h2, h3]
  · intro p
    unfold ManifestManager.diff
    simp [List.mem_filter]

theorem dictSet_cons_eq {α : Type} (k : String) (v0 v : α)
    (t : List (String × α)) :
    dictSet ((k, v0) :: t) k v
      = (k, v) :: t.map (fun p => if p.1 = k then (k, v) else p) := by
  unfold dictSet
  simp

theorem dictSet_cons_ne {α : Type} {k0 k : String} (h : k0 ≠ k) (v0 v : α)
    (t : List (String × α)) :
    dictSet ((k0, v0) :: t) k v = (k0, v0) :: dictSet t k v := by
  unfold dictSet
  by_cases ht : t.any (fun p => decide (p.1 = k)) = true
  · simp [ht, h]
  · simp [ht, h]

theorem lookupKey_map_replace {α : Type} {k' k : String} (h : k' ≠ k) (v : α)
    (t : List (String × α)) :
    lookupKey (t.map (fun p => if p.1 = k then (k, v) else p)) k'
      = lookupKey t k' := by
  induction t with
  | nil => rfl
  | cons p t ih =>
    obtain ⟨k0, v0⟩ := p
    by_cases h0 : k0 = k
    · subst h0
      simp only [List.map_cons, if_pos rfl]
      unfold lookupKey
      rw [if_neg (fun he => h he.symm), if_neg (fun he => h he.symm), ih]
    · simp only [List.map_cons, if_neg h0]
      unfold lookupKey
      by_cases he : k0 = k'
      · simp [he]
      · simp [he, ih]

theorem lookupKey_dictSet_self {α : Type} (d : List (String × α)) (k : String)
    (v : α) : lookupKey (dictSet d k v) k = some v := by
  induction d with
  | nil => simp [dictSet, lookupKey]
  | cons p t ih =>
    obtain ⟨k0, v0⟩ := p
    by_cases h0 : k0 = k
    · subst h0
      rw [dictSet_cons_eq]
      simp [lookupKey]
    · rw [dictSet_cons_ne h0]
      unfold lookupKey
      rw [if_neg h0]
      exact ih

theorem lookupKey_cons_eq {α : Type} (k : String) (v : α)
    (t : List (String × α)) : lookupKey ((k, v) :: t) k = some v := by
  simp [lookupKey]

theorem lookupKey_cons_ne {α : Type} {k0 p : String} (h : k0 ≠ p) (v : α)
    (t : List (String × α)) : lookupKey ((k0, v) :: t) p = lookupKey t p := by
  simp [lookupKey, h]

theorem lookupKey_dictSet_ne {α : Type} {k' k : String} (h : k' ≠ k)
    (d : List (String × α)) (v : α) :
    lookupKey (dictSet d k v) k' = lookupKey d k' := by
  induction d with
  | nil =>
    have hd : dictSet ([] : List (String × α)) k v = [(k, v)] := rfl
    rw [hd, lookupKey_cons_ne (fun he => h he.symm)]
  | cons p t ih =>
    obtain ⟨k0, v0⟩ := p
    by_cases h0 : k0 = k
    · subst h0
      rw [dictSet_cons_eq, lookupKey_cons_ne (fun he => h he.symm),
        lookupKey_cons_ne (fun he => h he.symm)]
      exact lookupKey_map_replace h v t
    · rw [dictSet_cons_ne h0]
      by_cases he : k0 = k'
      · subst he
        rw [lookupKey_cons_eq, lookupKey_cons_eq]
      · rw [lookupKey_cons_ne he, lookupKey_cons_ne he]
        exact ih

theorem dictRemove_cons_eq {α : Type} (k : String) (v0 : α)
    (t : List (String × α)) :
    dictRemove ((k, v0) :: t) k = dictRemove t k := by
  unfold dictRemove
  rw [List.filter_cons]
  simp

theorem dictRemove_cons_ne {α : Type} {k0 k : String} (h : k0 ≠ k) (v0 : α)
    (t : List (String × α)) :
    dictRemove ((k0, v0) :: t) k = (k0, v0) :: dictRemove t k := by
  unfold dictRemove
  rw [List.filter_cons]
  simp [h]

theorem lookupKey_dictRemove_self {α : Type} (d : List (String × α))
    (k : String) : lookupKey (dictRemove d k) k = none := by
  induction d with
  | nil => rfl
  | cons p t ih =>
    obtain ⟨k0, v0⟩ := p
    by_cases h0 : k0 = k
    · subst h0
      rw [dictRemove_cons_eq]
      exact ih
    · rw [dictRemove_cons_ne h0, lookupKey_cons_ne h0]
      exact ih

theorem lookupKey_dictRemove_ne {α : Type} {k' k : String} (h : k' ≠ k)
    (d : List (String × α)) :
    lookupKey (dictRemove d k) k' = lookupKey d k' := by
  induction d with
  | nil => rfl
  | cons p t ih =>
    obtain ⟨k0, v0⟩ := p
    by_cases h0 : k0 = k
    · subst h0
      rw [dictRemove_cons_eq, lookupKey_cons_ne (fun he => h he.symm)]
      exact ih
    · rw [dictRemove_cons_ne h0]
      by_cases he : k0 = k'
      · subst he
        rw [lookupKey_cons_eq, lookupKey_cons_eq]
      · rw [lookupKey_cons_ne he, lookupKey_cons_ne he]
        exact ih

/-- Folding `add_entry` over files whose relative path is never `p` does
not affect the entry at `p`. -/
theorem foldl_add_lookup_notmem (backup_time : Int) (now : String)
    (permOf : FileInfo → Int) (l : List FileInfo) (m : Manifest) (p : String)
    (h : ¬ p ∈ l.map (fun f => f.relative_path)) :
    lookupKey ((l.foldl
      (fun acc f =>
        acc.add_entry (ManifestEntry.from_file_info f (permOf f) backup_time) now)
      m).entries) p = lookupKey m.entries p := by
  induction l generalizing m with
  | nil => rfl
  | cons f t ih =>
    simp only [List.map_cons, List.mem_cons, not_or] at h
    rw [List.foldl_cons, ih _ h.2]
    exact lookupKey_dictSet_ne h.1 m.entries _

/-- Folding `add_entry` over files with pairwise-distinct relative paths
installs, for each file, exactly its freshly built entry. -/
theorem foldl_add_lookup_mem (backup_time : Int) (now : String)
    (permOf : FileInfo → Int) (l : List FileInfo) (m : Manifest) (f : FileInfo)
    (hnd : (l.map (fun g => g.relative_path)).Nodup) (hf : f ∈ l) :
    lookupKey ((l.foldl
      (fun acc g =>
        acc.add_entry (ManifestEntry.from_file_info g (permOf g) backup_time) now)
      m).entries) f.relative_path
      = some (ManifestEntry.from_file_info f (permOf f) backup_time) := by
  induction l generalizing m with
  | nil => cases hf
  | cons g t ih =>
    rw [List.map_cons, List.nodup_cons] at hnd
    obtain ⟨hg, hndt⟩ := hnd
    rcases List.mem_cons.mp hf with hfg | hft
    · subst hfg
      rw [List.foldl_cons,
        foldl_add_lookup_notmem backup_time now permOf t _ _ hg]
      exact lookupKey_dictSet_self m.entries _ _
    · rw [List.foldl_cons]
      exact ih _ hndt hft

/-- Folding `remove_entry` never introduces an entry. -/
theorem foldl_rem_preserve_none (now : String) (l : List String) (m : Manifest)
    (p : String) (h : lookupKey m.entries p = none) :
    lookupKey ((l.foldl (fun acc q => acc.remove_entry q now) m).entries) p
      = none := by
  induction l generalizing m with
  | nil => exact h
  | cons q t ih =>
    rw [List.foldl_cons]
    refine ih _ ?_
    by_cases hq : p = q
    · subst hq
      exact lookupKey_dictRemove_self m.entries p
    · rw [show (Manifest.remove_entry m q now).entries = dictRemove m.entries q
          from rfl, lookupKey_dictRemove_ne hq]
      exact h

/-- After folding `remove_entry` over `l`, every path of `l` is absent. -/
theorem foldl_rem_lookup_mem (now : String) (l : List String) (m : Manifest)
    (p : String) (hp : p ∈ l) :
    lookupKey ((l.foldl (fun acc q => acc.remove_entry q now) m).entries) p
      = none := by
  induction l generalizing m with
  | nil => cases hp
  | cons q t ih =>
    rw [List.foldl_cons]
    rcases List.mem_cons.mp hp with hpq | hpt
    · subst hpq
      exact foldl_rem_preserve_none now t _ p
        (lookupKey_dictRemove_self m.entries p)
    · exact ih _ hpt

/-- Folding `remove_entry` over paths other than `p` leaves the entry at
`p` unchanged. -/
theorem foldl_rem_lookup_notmem (now : String) (l : List String) (m : Manifest)
    (p : String) (hp : ¬ p ∈ l) :
    lookupKey ((l.foldl (fun acc q => acc.remove_entry q now) m).entries) p
      = lookupKey m.entries p := by
  induction l generalizing m with
  | nil => rfl
  | cons q t ih =>
    simp only [List.mem_cons, not_or] at hp
    rw [List.foldl_cons, ih _ hp.2,
      show (Manifest.remove_entry m q now).entries = dictRemove m.entries q
        from rfl]
    exact lookupKey_dictRemove_ne hp.1 m.entries

theorem foldl_add_backup_count (backup_time : Int) (now : String)
    (permOf : FileInfo → Int) (l : List FileInfo) (m : Manifest) :
    ((l.foldl
      (fun acc f =>
        acc.add_entry (ManifestEntry.from_file_info f (permOf f) backup_time) now)
      m).backup_count) = m.backup_count := by
  induction l generalizing m with
  | nil => rfl
  | cons f t ih => rw [List.foldl_cons, ih]; rfl

theorem foldl_rem_backup_count (now : String) (l : List String) (m : Manifest) :
    ((l.foldl (fun acc q => acc.remove_entry q now) m).backup_count)
      = m.backup_count := by
  induction l generalizing m with
  | nil => rfl
  | cons q t ih => rw [List.foldl_cons, ih]; rfl

/-- C3 (amended) — provided the backed-up files have pairwise-distinct
relative paths none of which is among the deleted paths,
`update_from_backup` yields a manifest in which every backed-up file has
an entry carrying its size, mtime, hash (empty-string rendering of a
missing hash) and `backed_up_at` equal to the update time; every deleted
path has no entry; entries at untouched paths are unchanged; and the
backup counter grows by exactly one. -/
theorem C3_update_from_backup (m : Manifest) (files : List FileInfo)
    (deleted : List String) (backup_time : Int) (now : String)
    (permOf : FileInfo → Int)
    (hnd : (files.map (fun f => f.relative_path)).Nodup)
    (hdisj : ∀ f ∈ files, ¬ f.relative_path ∈ deleted) :
    (∀ f ∈ files, ∃ e : ManifestEntry,
      (ManifestManager.update_from_backup m files deleted backup_time now
        permOf).get_entry f.relative_path = some e
      ∧ e.size = f.size ∧ e.mtime = f.mtime
      ∧ e.file_hash = f.file_hash.getD ""
      ∧ e.backed_up_at = backup_time)
    ∧ (∀ p ∈ deleted,
        (ManifestManager.update_from_backup m files deleted backup_time now
          permOf).get_entry p = none)
    ∧ (∀ p : String, ¬ p ∈ files.map (fun f => f.relative_path) →
        ¬ p ∈ deleted →
        (ManifestManager.update_from_backup m files deleted backup_time now
          permOf).get_entry p = m.get_entry p)
    ∧ (ManifestManager.update_from_backup m files deleted backup_time now
        permOf).backup_count = m.backup_count + 1 := by
  unfold ManifestManager.update_from_backup
  refine ⟨?_, ?_, ?_, ?_⟩
  · intro f hf
    refine ⟨ManifestEntry.from_file_info f (permOf f) backup_time, ?_, rfl, rfl, rfl, rfl⟩
    show lookupKey _ f.relative_path = _
    rw [foldl_rem_lookup_notmem now deleted _ _ (hdisj f hf)]
    exact foldl_add_lookup_mem backup_time now permOf files m f hnd hf
  · intro p hp
    show lookupKey _ p = none
    exact foldl_rem_lookup_mem now deleted _ p hp
  · intro p hpf hpd
    show lookupKey _ p = lookupKey m.entries p
    rw [foldl_rem_lookup_notmem now deleted _ _ hpd]
    exact foldl_add_lookup_notmem backup_time now permOf files m p hpf
  · show ((deleted.foldl (fun acc p => acc.remove_entry p now)
        (files.foldl
          (fun acc f =>
            acc.add_entry (ManifestEntry.from_file_info f (permOf f) backup_time)
              now)
          m)).backup_count + 1) = m.backup_count + 1
    rw [foldl_rem_backup_count, foldl_add_backup_count]

/-- C3 counterexample — the claim as stated fails when a backed-up
file's relative path is also a supplied deleted path (here `"a.txt"` is
both backed up and deleted): after `update_from_backup` the manifest has
no entry for the backed-up file at all, so the backed-up file does not
get an entry carrying its metadata. -/
theorem C3_counterexample :
    exFileA ∈ [exFileA] ∧
    (ManifestManager.update_from_backup exManifest [exFileA] ["a.txt"] 7 "t"
      (fun _ => 420)).get_entry exFileA.relative_path = none := by
  constructor
  · exact List.mem_singleton.mpr rfl
  · decide

/-- Witness for C3 at a concrete input: one backed-up file, one unrelated
deleted path. -/
theorem C3_update_from_backup_witness :
    (∀ f ∈ [exFileA], ∃ e : ManifestEntry,
      (ManifestManager.update_from_backup exManifest [exFileA] ["b.txt"] 7 "t"
        (fun _ => 420)).get_entry f.relative_path = some e
      ∧ e.size = f.size ∧ e.mtime = f.mtime
      ∧ e.file_hash = f.file_hash.getD ""
      ∧ e.backed_up_at = 7)
    ∧ (∀ p ∈ ["b.txt"],
        (ManifestManager.update_from_backup exManifest [exFileA] ["b.txt"] 7 "t"
          (fun _ => 420)).get_entry p = none)
    ∧ (∀ p : String, ¬ p ∈ [exFileA].map (fun f => f.relative_path) →
        ¬ p ∈ ["b.txt"] →
        (ManifestManager.update_from_backup exManifest [exFileA] ["b.txt"] 7 "t"
          (fun _ => 420)).get_entry p = exManifest.get_entry p)
    ∧ (ManifestManager.update_from_backup exManifest [exFileA] ["b.txt"] 7 "t"
        (fun _ => 420)).backup_count = exManifest.backup_count + 1 :=
  C3_update_from_backup exManifest [exFileA] ["b.txt"] 7 "t" (fun _ => 420)
    (by decide) (by decide)

theorem entry_round_trip (rp : String) (e : ManifestEntry) :
    ManifestEntry.from_dict rp (ManifestEntry.to_dict e)
      = .ok { e with relative_path := rp } := rfl

theorem files_fold (l : List (String × ManifestEntry))
    (acc : List (String × ManifestEntry)) :
    ((l.map (fun p => (p.1, ManifestEntry.to_dict p.2))).foldlM entryStep acc
        : Except String _)
      = .ok (l.foldl
          (fun a p => dictSet a p.1 { p.2 with relative_path := p.1 }) acc) := by
  induction l generalizing acc with
  | nil => rfl
  | cons p t ih =>
    rw [List.map_cons, List.foldlM_cons,
      show entryStep acc (p.1, ManifestEntry.to_dict p.2)
        = .ok (dictSet acc p.1 { p.2 with relative_path := p.1 }) from rfl]
    exact ih _

theorem dictSet_append_of_fresh {α : Type} {d : List (String × α)} {k : String}
    (h : d.any (fun p => decide (p.1 = k)) = false) (v : α) :
    dictSet d k v = d ++ [(k, v)] := by
  unfold dictSet
  simp [h]

theorem foldl_dictSet_fresh (f : String → ManifestEntry → ManifestEntry)
    (l : List (String × ManifestEntry)) (acc : List (String × ManifestEntry))
    (hnd : (dictKeys l).Nodup)
    (hfresh : ∀ k ∈ dictKeys l, acc.any (fun p => decide (p.1 = k)) = false) :
    l.foldl (fun a p => dictSet a p.1 (f p.1 p.2)) acc
      = acc ++ l.map (fun p => (p.1, f p.1 p.2)) := by
  induction l generalizing acc with
  | nil => simp
  | cons p t ih =>
    rw [List.foldl_cons,
      dictSet_append_of_fresh (hfresh p.1 (List.mem_cons_self _ _)) _]
    rw [dictKeys, List.map_cons, List.nodup_cons] at hnd
    have hstep : ∀ k ∈ dictKeys t,
        (acc ++ [(p.1, f p.1 p.2)]).any (fun q => decide (q.1 = k)) = false := by
      intro k hk
      rw [List.any_append]
      have h1 := hfresh k (List.mem_cons_of_mem _ hk)
      have h2 : p.1 ≠ k := fun he => hnd.1 (he ▸ hk)
      simp [h1, h2]
    rw [ih _ hnd.2 hstep, List.append_assoc]
    rfl

theorem lookup_reKey_map (l : List (String × ManifestEntry)) (p : String) :
    ((lookupKey (l.map
      (fun q => (q.1, { q.2 with relative_path := q.1 }))) p).map
        (fun e => (e.file_hash, e.size, e.mtime, e.permissions, e.backed_up_at)))
    = ((lookupKey l p).map
        (fun e => (e.file_hash, e.size, e.mtime, e.permissions, e.backed_up_at))) := by
  induction l with
  | nil => rfl
  | cons q t ih =>
    obtain ⟨k0, v0⟩ := q
    by_cases h0 : k0 = p
    · subst h0
      rw [List.map_cons, lookupKey_cons_eq, lookupKey_cons_eq]
      rfl
    · rw [List.map_cons, lookupKey_cons_ne h0, lookupKey_cons_ne h0]
      exact ih

/-- With pairwise-distinct keys, folding dict assignment over a fresh
dict appends the entries in order. -/
theorem entries_fold_map (ent : List (String × ManifestEntry))
    (hnd : (dictKeys ent).Nodup) :
    ent.foldl (fun a p => dictSet a p.1 { p.2 with relative_path := p.1 })
        ([] : List (String × ManifestEntry))
      = ent.map (fun p => (p.1, { p.2 with relative_path := p.1 })) := by
  have h := foldl_dictSet_fresh (fun k e => { e with relative_path := k }) ent
    [] hnd (fun k _ => rfl)
  simpa using h

/-- Model of `Manifest.from_dict` undoes `Manifest.to_dict` exactly, up to each
entry's `relative_path` field being re-derived from its key. -/
theorem from_dict_to_dict (now : String) (m : Manifest)
    (hnd : (dictKeys m.entries).Nodup) :
    Manifest.from_dict now (Manifest.to_dict m)
      = .ok { m with entries :=
          m.entries.map (fun p => (p.1, { p.2 with relative_path := p.1 })) } := by
  obtain ⟨v, fmt, cr, up, src, hn, bc, ent⟩ := m
  have hnd' : (dictKeys ent).Nodup := hnd
  have hfold := files_fold ent []
  cases fmt
  case JSON =>
    have h1 : Manifest.from_dict now
        (Manifest.to_dict ⟨v, .JSON, cr, up, src, hn, bc, ent⟩)
      = ((ent.map (fun p => (p.1, ManifestEntry.to_dict p.2))).foldlM entryStep
          ([] : List (String × ManifestEntry))).bind
          (fun entries =>
            (Except.ok ⟨v, .JSON, cr, up, src, hn, bc, entries⟩
              : Except String Manifest)) := rfl
    rw [h1, hfold, entries_fold_map ent hnd']
    rfl
  case SQLITE =>
    have h1 : Manifest.from_dict now
        (Manifest.to_dict ⟨v, .SQLITE, cr, up, src, hn, bc, ent⟩)
      = ((ent.map (fun p => (p.1, ManifestEntry.to_dict p.2))).foldlM entryStep
          ([] : List (String × ManifestEntry))).bind
          (fun entries =>
            (Except.ok ⟨v, .SQLITE, cr, up, src, hn, bc, entries⟩
              : Except String Manifest)) := rfl
    rw [h1, hfold, entries_fold_map ent hnd']
    rfl

/-- C4 — round-trip: for a manifest with pairwise-distinct entry keys
(dict semantics), `from_dict` after `to_dict` succeeds and preserves
`source`, `hostname`, `backup_count`, the entry count, and every entry's
hash, size, mtime, permissions and `backed_up_at` at every relative path;
so a successful `save` followed by `load` restores these fields. -/
theorem C4_round_trip (now : String) (m : Manifest)
    (hnd : (dictKeys m.entries).Nodup) :
    ∃ m' : Manifest,
      Manifest.from_dict now (Manifest.to_dict m) = .ok m'
      ∧ m'.source = m.source ∧ m'.hostname = m.hostname
      ∧ m'.backup_count = m.backup_count
      ∧ m'.entries.length = m.entries.length
      ∧ ∀ p : String,
          (m'.get_entry p).map (fun e =>
            (e.file_hash, e.size, e.mtime, e.permissions, e.backed_up_at))
          = (m.get_entry p).map (fun e =>
            (e.file_hash, e.size, e.mtime, e.permissions, e.backed_up_at)) := by
  refine ⟨_, from_dict_to_dict now m hnd, rfl, rfl, rfl, by simp, ?_⟩
  intro p
  show ((lookupKey (m.entries.map
      (fun q => (q.1, { q.2 with relative_path := q.1 }))) p).map
        (fun e => (e.file_hash, e.size, e.mtime, e.permissions, e.backed_up_at)))
    = ((lookupKey m.entries p).map
        (fun e => (e.file_hash, e.size, e.mtime, e.permissions, e.backed_up_at)))
  exact lookup_reKey_map m.entries p

/-- Witness for C4 at a concrete one-entry manifest. -/
theorem C4_round_trip_witness :
    ∃ m' : Manifest,
      Manifest.from_dict "2024-01-03T00:00:00" (Manifest.to_dict exManifest4)
        = .ok m'
      ∧ m'.source = exManifest4.source ∧ m'.hostname = exManifest4.hostname
      ∧ m'.backup_count = exManifest4.backup_count
      ∧ m'.entries.length = exManifest4.entries.length
      ∧ ∀ p : String,
          (m'.get_entry p).map (fun e =>
            (e.file_hash, e.size, e.mtime, e.permissions, e.backed_up_at))
          = (exManifest4.get_entry p).map (fun e =>
            (e.file_hash, e.size, e.mtime, e.permissions, e.backed_up_at)) :=
  C4_round_trip "2024-01-03T00:00:00" exManifest4 (by decide)

/-- C5 — the three states the `except` clause anticipates (absent,
unreadable, undecodable) are indeed mapped to `None`, but a file whose
content is valid JSON yet malformed as a manifest — here
`{"format": "xml"}` — makes `load` raise (`ValueError` escapes the
`except (json.JSONDecodeError, IOError, OSError)` clause), contradicting
the claim that `load` returns `None` for every corrupted on-disk state. -/
theorem C5_load_raises_on_malformed :
    (∀ now : String, JsonManifestManager.load now .absent = .ok none)
    ∧ (∀ now : String, JsonManifestManager.load now .unreadable = .ok none)
    ∧ (∀ now : String, JsonManifestManager.load now .garbled = .ok none)
    ∧ JsonManifestManager.load "2024-01-01T00:00:00"
        (.content (.obj [("format", .str "xml")]))
        = .error "ValueError: not a valid ManifestFormat" :=
  ⟨fun _ => rfl, fun _ => rfl, fun _ => rfl, rfl⟩

/-- C6 — atomicity of `save`: a failing step returns `False`, leaves
the final manifest file exactly as it was (in particular still absent if
it never existed) and removes the temp file; a run with no failing step
returns `True` and installs exactly the new manifest's serialization by
renaming the temp file; and `save` fails exactly when some step fails. -/
theorem C6_save_atomic (dir : ManifestDir) (manifest : Manifest)
    (failure : Option SaveFailure) :
    ((JsonManifestManager.save dir manifest failure).2 = false →
      (JsonManifestManager.save dir manifest failure).1.final = dir.final
      ∧ (JsonManifestManager.save dir manifest failure).1.temp = .absent)
    ∧ ((JsonManifestManager.save dir manifest failure).2 = true →
      (JsonManifestManager.save dir manifest failure).1.final
          = .content manifest.to_dict
      ∧ (JsonManifestManager.save dir manifest failure).1.temp = .absent)
    ∧ ((JsonManifestManager.save dir manifest failure).2 = false ↔
        failure.isSome) := by
  rcases failure with _ | f
  · simp [JsonManifestManager.save]
  · cases f <;> simp [JsonManifestManager.save]

/-- Witness for C6: a failing temp-file write at a concrete directory
state leaves the old content in place, and a failure-free save installs
the new serialization. -/
theorem C6_save_atomic_witness :
    ((JsonManifestManager.save
        { final := .garbled, temp := .absent } exManifest4
        (some .writeFail)).1.final = .garbled
      ∧ (JsonManifestManager.save
        { final := .garbled, temp := .absent } exManifest4
        (some .writeFail)).1.temp = .absent)
    ∧ ((JsonManifestManager.save
        { final := .garbled, temp := .absent } exManifest4 none).1.final
        = .content exManifest4.to_dict
      ∧ (JsonManifestManager.save
        { final := .garbled, temp := .absent } exManifest4 none).1.temp
        = .absent) :=
  ⟨(C6_save_atomic { final := .garbled, temp := .absent } exManifest4
      (some .writeFail)).1 rfl,
   (C6_save_atomic { final := .garbled, temp := .absent } exManifest4
      none).2.1 rfl⟩

theorem restore_validation_result (env : RestoreEnv) (rest : RestoreResult)
    (h : RestoreEngine.validation_failed env = true) :
    RestoreEngine.restore env rest = { errors := 1 } := by
  unfold RestoreEngine.validation_failed at h
  unfold RestoreEngine.restore
  by_cases hb : env.backupTargetExists
  · simp only [hb, Bool.not_true, Bool.false_or] at h
    simp only [hb, Bool.not_true, Bool.false_eq_true, if_false]
    rw [Bool.and_eq_true] at h
    obtain ⟨ht, hm⟩ := h
    rw [Option.isNone_iff_eq_none] at ht
    rw [ht]
    cases hmn : env.manifest with
    | none => rfl
    | some m =>
      rw [hmn] at hm
      simp only [decide_eq_true_eq] at hm
      simp [hm]
  · simp [hb]

/-- C7 (amended) — when validation fails, neither engine performs any
file work (the abstracted remainder of the run is never consulted) and
all file/byte counters of the returned result are zero; `RestoreEngine`
reports `errors = 1`, but `BackupEngine.run_backup` returns `errors = 0`
(the failure is only logged). -/
theorem C7_validation_short_circuit :
    (∀ (env : PathEnv) (rest rest' : BackupResult),
      BackupEngine.validate_paths env = false →
        BackupEngine.run_backup env rest = BackupEngine.run_backup env rest'
        ∧ (BackupEngine.run_backup env rest).total_files = 0
        ∧ (BackupEngine.run_backup env rest).copied_files = 0
        ∧ (BackupEngine.run_backup env rest).updated_files = 0
        ∧ (BackupEngine.run_backup env rest).skipped_files = 0
        ∧ (BackupEngine.run_backup env rest).deleted_files = 0
        ∧ (BackupEngine.run_backup env rest).total_size = 0
        ∧ (BackupEngine.run_backup env rest).copied_size = 0
        ∧ (BackupEngine.run_backup env rest).errors = 0)
    ∧ (∀ (env : RestoreEnv) (rest rest' : RestoreResult),
        RestoreEngine.validation_failed env = true →
          RestoreEngine.restore env rest = RestoreEngine.restore env rest'
          ∧ (RestoreEngine.restore env rest).total_files = 0
          ∧ (RestoreEngine.restore env rest).restored_files = 0
          ∧ (RestoreEngine.restore env rest).skipped_files = 0
          ∧ (RestoreEngine.restore env rest).overwritten_files = 0
          ∧ (RestoreEngine.restore env rest).total_size = 0
          ∧ (RestoreEngine.restore env rest).restored_size = 0
          ∧ (RestoreEngine.restore env rest).errors = 1) := by
  constructor
  · intro env rest rest' h
    unfold BackupEngine.run_backup
    rw [h]
    exact ⟨rfl, rfl, rfl, rfl, rfl, rfl, rfl, rfl, rfl⟩
  · intro env rest rest' h
    rw [restore_validation_result env rest h,
      restore_validation_result env rest' h]
    exact ⟨rfl, rfl, rfl, rfl, rfl, rfl, rfl, rfl⟩

/-- C7 counterexample — the claim as stated is false for
`BackupEngine`: with a missing source directory the run short-circuits,
yet the returned result has `errors = 0`, not `errors ≥ 1`. -/
theorem C7_counterexample :
    BackupEngine.validate_paths
        { sourceExists := false, backupExists := true, writeProbeOk := true }
      = false
    ∧ ¬ (1 ≤ (BackupEngine.run_backup
        { sourceExists := false, backupExists := true, writeProbeOk := true }
        exRest).errors) := by
  constructor
  · rfl
  · decide

/-- Witness for C7 at concrete inputs (missing source for the backup
engine; missing backup directory for the restore engine). -/
theorem C7_validation_short_circuit_witness :
    (BackupEngine.run_backup
        { sourceExists := false, backupExists := true, writeProbeOk := true }
        exRest).errors = 0
    ∧ (RestoreEngine.restore
        { backupTargetExists := false, target_path := none, manifest := none }
        { total_files := 3 }).errors = 1 :=
  ⟨(C7_validation_short_circuit.1
      { sourceExists := false, backupExists := true, writeProbeOk := true }
      exRest exRest rfl).2.2.2.2.2.2.2.2,
   (C7_validation_short_circuit.2
      { backupTargetExists := false, target_path := none, manifest := none }
      { total_files := 3 } { total_files := 3 } rfl).2.2.2.2.2.2.2⟩

/-- C8 — restoring a single file onto an existing target: with
`overwrite=False` (SKIP) the target is kept and the file reported
skipped; with `overwrite=True` (OVERWRITE) the target is replaced by the
backup copy and reported `UPDATED`, which the aggregation counts as
overwritten; under NEWER the target is replaced exactly when the backup
copy's mtime is strictly greater, and kept (skipped) otherwise. -/
theorem C8_conflict_policy :
    (∀ (src t : FileState),
      RestoreEngine.restore_single_file src (some t) (conflict_of false)
        = (some t, (true, .SKIPPED, "File exists")))
    ∧ (∀ (src t : FileState),
      RestoreEngine.restore_single_file src (some t) (conflict_of true)
        = (some src, (true, .UPDATED, "OK")))
    ∧ (∀ (src t : FileState),
      RestoreEngine.restore_single_file src (some t) .NEWER
        = if t.mtime < src.mtime then (some src, (true, .UPDATED, "OK"))
          else (some t, (true, .SKIPPED, "Target is newer")))
    ∧ (∀ (r : RestoreResult) (sz : Int),
        (r.record true .SKIPPED sz).skipped_files = r.skipped_files + 1
        ∧ (r.record true .UPDATED sz).overwritten_files
            = r.overwritten_files + 1) := by
  refine ⟨fun src t => rfl, fun src t => rfl, ?_, fun r sz => ⟨rfl, rfl⟩⟩
  intro src t
  show (if src.mtime ≤ t.mtime
      then (some t, (true, FileAction.SKIPPED, "Target is newer"))
      else (some src, (true, FileAction.UPDATED, "OK")))
    = _
  by_cases h : src.mtime ≤ t.mtime
  · rw [if_pos h, if_neg (by omega)]
  · rw [if_neg h, if_pos (by omega)]

/-- C9 — a path whose final name component equals a configured
wildcard-free exclusion name under case-insensitive comparison is always
excluded, with the exact-match reason — i.e. the exact-name rule fires
before the extension, pattern and virtual-env rules, whatever those
would say. -/
theorem C9_exact_name_excluded (exclusions excluded_extensions : List String)
    (excl : String) (path : SPath) (is_venv : Bool)
    (hmem : excl ∈ exclusions) (hnoglob : hasGlobChar excl = false)
    (hname : lowerStr path.name = lowerStr excl) :
    (ExclusionFilter.init exclusions excluded_extensions).should_exclude
        path is_venv
      = (true, "Exact match: " ++ lowerStr path.name) := by
  unfold ExclusionFilter.should_exclude
  have hm : lowerStr path.name
      ∈ (ExclusionFilter.init exclusions excluded_extensions).exact_matches := by
    rw [hname]
    exact List.mem_map_of_mem lowerStr
      (List.mem_filter.mpr ⟨hmem, by simp [hnoglob]⟩)
  rw [if_pos hm]

/-- Witness for C9: `{"node_modules"}` excludes a path named
`NODE_MODULES` by case-insensitive exact match. -/
theorem C9_exact_name_excluded_witness :
    (ExclusionFilter.init ["node_modules"] []).should_exclude
        { name := "NODE_MODULES" } false
      = (true, "Exact match: " ++ lowerStr "NODE_MODULES") :=
  C9_exact_name_excluded ["node_modules"] [] "node_modules"
    { name := "NODE_MODULES" } false (by decide) (by decide) (by decide)

/-- C10 — any file whose relative path string starts with
`_backup_logs` or `.smartbackup` is omitted by `_collect_files` for
every pattern list (and hence untouched by restore and `list_files`),
including ordinary user files that merely begin with those prefixes. -/
theorem C10_internal_files_skipped (files patterns : List String)
    (rel : String)
    (hpre : strStartsWith rel "_backup_logs" = true
      ∨ strStartsWith rel ".smartbackup" = true) :
    ¬ rel ∈ RestoreEngine.collect_files files patterns := by
  intro hmem
  have hp := (List.mem_filter.mp hmem).2
  rcases hpre with h | h <;> simp [h] at hp

/-- Witness for C10: a user file named `.smartbackup_notes.txt` at the
top level is omitted even though every file matches the pattern list. -/
theorem C10_internal_files_skipped_witness :
    ¬ ".smartbackup_notes.txt" ∈ RestoreEngine.collect_files
        [".smartbackup_notes.txt", "docs/a.txt"] ["*"] :=
  C10_internal_files_skipped [".smartbackup_notes.txt", "docs/a.txt"] ["*"]
    ".smartbackup_notes.txt" (by decide)

/-- Witness for C1: a file whose size differs from its entry is classified
as modified (third part of the rule, at a concrete input). -/
theorem C1_change_rule_witness : exEntry.has_changed exFile = true :=
  C1_change_rule.2.2 exEntry exFile (by decide)

/-- Witness for C2 at a concrete scan (one new file) against the
one-entry manifest (whose entry becomes deleted). -/
theorem C2_diff_partition_witness :
    (∀ f ∈ [exFileA],
      ((ManifestManager.diff [exFileA] (some exManifest4)).new_files.map
          (fun g => g.relative_path)).count f.relative_path
      + ((ManifestManager.diff [exFileA] (some exManifest4)).modified_files.map
          (fun g => g.relative_path)).count f.relative_path
      + ((ManifestManager.diff [exFileA] (some exManifest4)).unchanged_files.map
          (fun g => g.relative_path)).count f.relative_path = 1)
    ∧ (∀ p : String,
        p ∈ (ManifestManager.diff [exFileA] (some exManifest4)).deleted_paths ↔
          (p ∈ dictKeys exManifest4.entries ∧
            ¬ p ∈ [exFileA].map (fun f => f.relative_path))) :=
  C2_diff_partition [exFileA] exManifest4 (by decide)

end SmartBackup
